import Mathlib

set_option maxRecDepth 40000

/-!
Shallow embedding of the preventive-maintenance scheduling engine of the
MANTENIMIENTOS repository (Express server variants `src/unnamed/part_003`,
`part_004`, `part_005`, `part_009` and `src/src/services/ai.js`).

Dates are modelled as natural numbers counting days from a fixed epoch that
falls on a Sunday, so `d % 7 = 0` holds exactly when day `d` is a Sunday
(dayjs `day() === 0`).  Open maintenance records (`fecha_fin IS NULL`,
`fecha_inicio IS NOT NULL`) are modelled as a list of `Registro`, each
carrying the owning unit's optional depot id and its start date; the
`cedis` table is a list of `Cede` (id and name).
-/

namespace Mantenimientos

/-- A depot row: `SELECT id, nombre FROM cedis`. -/
structure Cede where
  id : Nat
  nombre : String
deriving DecidableEq, Repr

/-- An open maintenance record joined with its unit: the unit's `cedis_id`
(nullable) and `DATE(fecha_inicio)` as a day number. -/
structure Registro where
  cedisId : Option Nat
  fecha : Nat
deriving DecidableEq, Repr

/-- Embedding of JS `small.startsWith`-style prefix test on char lists,
used to build `String.prototype.includes`. -/
def empiezaCon : List Char → List Char → Bool
  | [], _ => true
  | _ :: _, [] => false
  | p :: ps, c :: cs => (p == c) && empiezaCon ps cs

/-- Embedding of JS `String.prototype.includes` on char lists: does the
second list contain the first as a contiguous sublist? -/
def subLista (p : List Char) : List Char → Bool
  | [] => p.isEmpty
  | c :: cs => empiezaCon p (c :: cs) || subLista p cs

/-- JS `s.includes(pat)` on char lists. -/
def contiene (s pat : List Char) : Bool :=
  subLista pat s

/-- JS `String.prototype.toLowerCase` as a char list. -/
def aMinusculas (s : String) : List Char :=
  s.data.map Char.toLower

/-- JS `String.prototype.toUpperCase` as a char list. -/
def aMayusculas (s : String) : List Char :=
  s.data.map Char.toUpper

/-- `diasBasePorVeces` (part_004 lines 51-55, identical in part_003 and
part_005): base interval from the count of prior maintenance records. -/
def diasBasePorVeces (veces : Nat) : Nat :=
  if veces ≥ 5 then 35
  else if veces ≥ 3 then 40
  else 45

/-- `esDomingo` (part_004 lines 56-59): dayjs `day() === 0`. -/
def esDomingo (d : Nat) : Bool :=
  d % 7 == 0

/-- The Sunday adjustment `if (esDomingo(f)) f = f.add(1, 'day')` shared by
`normalizaFuturo` (part_004 line 63) and the loop advance (line 154). -/
def evitaDomingo (f : Nat) : Nat :=
  if esDomingo f then f + 1 else f

/-- `normalizaFuturo` (part_004 lines 60-65): clamp a base date strictly in
the past to tomorrow, then move off a Sunday by one day. -/
def normalizaFuturo (hoy base : Nat) : Nat :=
  evitaDomingo (if base < hoy then hoy + 1 else base)

/-- `colisiona7Dias` (part_004 lines 66-74): a candidate collides when some
already-scheduled date is at absolute day distance strictly below 7. -/
def colisiona7Dias (c : Nat) (fechas : List Nat) : Bool :=
  fechas.any (fun d => Nat.dist c d < 7)

/-- Name test used by `resolveWorkshopKey`/`workshopInfo` (part_004 lines
82-103): lowercased depot name contains `cartago` or `transportadora`. -/
def nombreEnPool (nombre : String) : Bool :=
  contiene (aMinusculas nombre) "cartago".data ||
  contiene (aMinusculas nombre) "transportadora".data

/-- `getCedeById` (part_004 lines 77-80). -/
def buscaCede (tabla : List Cede) (id : Nat) : Option Cede :=
  tabla.find? (fun c => c.id == id)

/-- `workshopInfo` (part_004 lines 93-103): the capacity pool of a depot.
A null depot gives the empty pool with capacity 1; a Cartago/Transportadora
depot shares a pool of all such depots with capacity 5; any other depot is
its own pool with capacity 1. -/
def workshopInfo (tabla : List Cede) (cedisId : Option Nat) : List Nat × Nat :=
  match cedisId with
  | none => ([], 1)
  | some id =>
    let nombre := match buscaCede tabla id with
      | some c => c.nombre
      | none => ""
    if nombreEnPool nombre then
      ((tabla.filter (fun c => nombreEnPool c.nombre)).map (fun c => c.id), 5)
    else
      ([id], 1)

/-- The SQL filter `u.cedis_id IN (pool)` of `fechasProgramadasPorDia` and
`setFechasProgramadas` (part_004 lines 106-143): with an empty pool list no
filter is applied at all. -/
def enPool (pool : List Nat) (r : Registro) : Bool :=
  if pool.isEmpty then true
  else
    match r.cedisId with
    | some c => pool.contains c
    | none => false

/-- `setFechasProgramadas` (part_004 lines 127-143): start dates of the open
records whose unit lies in the pool. -/
def setFechasProgramadas (pool : List Nat) (regs : List Registro) : List Nat :=
  (regs.filter (enPool pool)).map (fun r => r.fecha)

/-- `fechasProgramadasPorDia` (part_004 lines 106-125) evaluated at one day:
how many open pool records start exactly on `d`. -/
def cuentaPorDia (pool : List Nat) (regs : List Registro) (d : Nat) : Nat :=
  ((regs.filter (enPool pool)).filter (fun r => r.fecha == d)).length

/-- The per-iteration advance of `primerDiaDisponible` (part_004 lines
153-154): one day forward, plus one more if that lands on a Sunday. -/
def avanzaDia (f : Nat) : Nat :=
  evitaDomingo (f + 1)

/-- The 180-iteration search loop of `primerDiaDisponible` (part_004 lines
149-156): return the current candidate when it neither collides nor exhausts
the pool's daily capacity, otherwise advance; when the fuel runs out the
current (unvalidated) candidate is returned as a fallback. -/
def buscaDia (fechas : List Nat) (pool : List Nat) (regs : List Registro)
    (maxPorDia : Nat) : Nat → Nat → Nat
  | 0, f => f
  | k + 1, f =>
    if colisiona7Dias f fechas = false ∧ cuentaPorDia pool regs f < maxPorDia then f
    else buscaDia fechas pool regs maxPorDia k (avanzaDia f)

/-- `primerDiaDisponible` (part_004 lines 145-157): normalize the base date
into the future and off Sunday, then search at most 180 candidates for one
passing the spacing and capacity rules, falling back to the 181st candidate. -/
def primerDiaDisponible (tabla : List Cede) (regs : List Registro)
    (cedisId : Option Nat) (hoy base : Nat) : Nat :=
  buscaDia (setFechasProgramadas (workshopInfo tabla cedisId).1 regs)
    (workshopInfo tabla cedisId).1 regs (workshopInfo tabla cedisId).2
    180 (normalizaFuturo hoy base)

/-- The most recent maintenance record as read by `calcularProximaFecha`
(part_004 lines 168-176); only its `tipo` column matters for the interval. -/
structure Ultimo where
  tipo : String
deriving DecidableEq, Repr

/-- The corrective test of `calcularProximaFecha` (part_004 line 179):
the last record exists and its kind, uppercased, equals `CORRECTIVO`. -/
def esCorrectivo (ultimo : Option Ultimo) : Bool :=
  match ultimo with
  | some u => aMayusculas u.tipo == "CORRECTIVO".data
  | none => false

/-- The heavy-work labels of `calcularProximaFecha` (part_004 line 187). -/
def trabajosPesados : List String :=
  ["cambio de aceite", "filtro", "frenos", "suspensión", "alineación", "balanceo"]

/-- The heavy-work test of `calcularProximaFecha` (part_004 lines 184-188):
some lowercased performed task contains some heavy-work label. -/
def tienePesado (hechos : List String) : Bool :=
  (hechos.map aMinusculas).any
    (fun h => trabajosPesados.any (fun p => contiene h p.data))

/-- The interval computation of `calcularProximaFecha` (part_004 lines
178-190): visit-count base, corrective cap at 30, heavy-work adjustment of
minus 5 floored at 20. -/
def intervaloDias (veces : Nat) (ultimo : Option Ultimo) (hechos : List String) : Nat :=
  let base := diasBasePorVeces veces
  let base2 := if esCorrectivo ultimo then min base 30 else base
  if tienePesado hechos then max (base2 - 5) 20 else base2

/-- `WORK_RULES` (part_009 lines 45-53) as a lookup from task label to its
nominal re-service interval. -/
def workRuleDias (t : String) : Option Nat :=
  if t = "Cambio de aceite" then some 45
  else if t = "Filtro de aire" then some 60
  else if t = "Pastillas/frenos" then some 30
  else if t = "Alineación/balanceo" then some 60
  else if t = "Rotación de llantas" then some 90
  else if t = "Líquidos (freno/refrigerante)" then some 60
  else if t = "Revisión general" then some 45
  else none

/-- `diasBasePorTrabajos` (part_009 lines 55-62): default 45; drop falsy
labels; when some labels are recognized take the minimum of their implied
intervals. -/
def diasBasePorTrabajos (trabajos : List String) : Nat :=
  let t := trabajos.filter (fun x => x != "")
  if t.isEmpty then 45
  else
    match t.filterMap workRuleDias with
    | [] => 45
    | c :: cs => cs.foldl min c

/-- Search loop that follows the spec words for the no-depot case, claim C4:
"capacity policy is skipped (any calendar/spacing-valid date is accepted)".
Identical to `buscaDia` except that the capacity conjunct is absent. -/
def buscaDiaSinCapacidad (fechas : List Nat) : Nat → Nat → Nat
  | 0, f => f
  | k + 1, f =>
    if colisiona7Dias f fechas = false then f
    else buscaDiaSinCapacidad fechas k (avanzaDia f)

/-- Spec-side comparator for claim C4: the scheduler with the capacity
policy skipped entirely, checking only calendar and spacing rules against
the fleet-wide snapshot. -/
def primerDiaSinCapacidad (regs : List Registro) (hoy base : Nat) : Nat :=
  buscaDiaSinCapacidad (setFechasProgramadas [] regs) 180 (normalizaFuturo hoy base)

/-- A pathological snapshot: open records (no depot) every 13 days, so each
day in a window wider than the whole 180-step search lies strictly within 7
days of some scheduled date. -/
def bloqueos : List Registro :=
  (List.range 18).map (fun k => ⟨none, 1 + 13 * k⟩)

/-- A depot table with two pooled depots (names containing `cartago` and
`transportadora`) and one ordinary depot. -/
def cedesEjemplo : List Cede :=
  [⟨1, "CEDIS Cartago"⟩, ⟨2, "Transportadora Norte"⟩, ⟨3, "CEDIS Sur"⟩]

/-- A snapshot for the pooled depots: blockers on depot 1 every 13 days plus
five open records of depot 2 exactly on day 211 (the fallback candidate of
the search started at day 1). -/
def regsCartago : List Registro :=
  (List.range 18).map (fun k => ⟨some 1, 1 + 13 * k⟩) ++
  (List.range 5).map (fun _ => ⟨some 2, 211⟩)

/-! ## Helper lemmas -/

theorem diasBasePorVeces_casos (v : Nat) :
    diasBasePorVeces v = 35 ∨ diasBasePorVeces v = 40 ∨ diasBasePorVeces v = 45 := by
  unfold diasBasePorVeces
  split
  · exact Or.inl rfl
  · split
    · exact Or.inr (Or.inl rfl)
    · exact Or.inr (Or.inr rfl)

theorem diasBasePorVeces_bounds (v : Nat) :
    35 ≤ diasBasePorVeces v ∧ diasBasePorVeces v ≤ 45 := by
  rcases diasBasePorVeces_casos v with h | h | h <;> rw [h] <;> omega

/-! ## Claims about the interval rule engine -/

/-- Claim C6: for every count of prior visits `v`, the base interval is 45
days when `v < 3`, 40 days when `3 ≤ v ≤ 4` and 35 days when `v ≥ 5`, so a
vehicle with 5+ prior visits never receives a longer base interval than one
with 0-2 prior visits. -/
theorem claim_c6_dias_base_por_veces (v w : Nat) :
    (v < 3 → diasBasePorVeces v = 45) ∧
    (3 ≤ v → v ≤ 4 → diasBasePorVeces v = 40) ∧
    (5 ≤ v → diasBasePorVeces v = 35) ∧
    (5 ≤ v → w < 3 → diasBasePorVeces v ≤ diasBasePorVeces w) := by
  unfold diasBasePorVeces
  refine ⟨?_, ?_, ?_, ?_⟩ <;> intros <;> split_ifs <;> omega

/-- Witness for C6 at concrete visit counts. -/
theorem claim_c6_dias_base_por_veces_witness :
    diasBasePorVeces 2 = 45 ∧ diasBasePorVeces 3 = 40 ∧ diasBasePorVeces 5 = 35 ∧
    diasBasePorVeces 5 ≤ diasBasePorVeces 0 :=
  ⟨(claim_c6_dias_base_por_veces 2 0).1 (by decide),
   (claim_c6_dias_base_por_veces 3 0).2.1 (by decide) (by decide),
   (claim_c6_dias_base_por_veces 5 0).2.2.1 (by decide),
   (claim_c6_dias_base_por_veces 5 0).2.2.2 (by decide) (by decide)⟩

/-- Claim C7: when the most recent record is corrective, the interval finally
computed (after the heavy-work adjustment too) is at most 30 days. -/
theorem claim_c7_correctivo_cap (veces : Nat) (ultimo : Option Ultimo)
    (hechos : List String) (h : esCorrectivo ultimo = true) :
    intervaloDias veces ultimo hechos ≤ 30 := by
  unfold intervaloDias
  rw [h]
  have hb := diasBasePorVeces_bounds veces
  simp only [if_true]
  split <;> omega

/-- Witness for C7: a corrective last record with a heavy task performed. -/
theorem claim_c7_correctivo_cap_witness :
    intervaloDias 0 (some ⟨"CORRECTIVO"⟩) ["Cambio de aceite"] ≤ 30 :=
  claim_c7_correctivo_cap 0 (some ⟨"CORRECTIVO"⟩) ["Cambio de aceite"] (by decide)

/-- Claim C10: for every visit count, last-record kind and task list, the
interval computed by the part_004 rule engine lies between 20 and 45 days. -/
theorem claim_c10_intervalo_rango (veces : Nat) (ultimo : Option Ultimo)
    (hechos : List String) :
    20 ≤ intervaloDias veces ultimo hechos ∧ intervaloDias veces ultimo hechos ≤ 45 := by
  unfold intervaloDias
  have hb := diasBasePorVeces_bounds veces
  simp only
  split <;> split <;> omega

theorem esDomingo_evitaDomingo (f : Nat) : esDomingo (evitaDomingo f) = false := by
  have h7 : ∀ n : Nat, esDomingo n = false ↔ n % 7 ≠ 0 := by
    intro n
    simp [esDomingo]
  have h7t : ∀ n : Nat, esDomingo n = true ↔ n % 7 = 0 := by
    intro n
    simp [esDomingo]
  unfold evitaDomingo
  split
  · rename_i h
    rw [h7t] at h
    rw [h7]
    omega
  · rename_i h
    rw [h7t] at h
    rw [h7]
    omega

theorem esDomingo_avanzaDia (f : Nat) : esDomingo (avanzaDia f) = false :=
  esDomingo_evitaDomingo (f + 1)

theorem esDomingo_normalizaFuturo (hoy base : Nat) :
    esDomingo (normalizaFuturo hoy base) = false :=
  esDomingo_evitaDomingo _

theorem evitaDomingo_bounds (f : Nat) : f ≤ evitaDomingo f ∧ evitaDomingo f ≤ f + 1 := by
  unfold evitaDomingo
  split <;> omega

theorem avanzaDia_bounds (f : Nat) : f + 1 ≤ avanzaDia f ∧ avanzaDia f ≤ f + 2 := by
  unfold avanzaDia
  have := evitaDomingo_bounds (f + 1)
  omega

theorem buscaDia_no_domingo (fechas pool : List Nat) (regs : List Registro)
    (maxPorDia : Nat) : ∀ k f, esDomingo f = false →
    esDomingo (buscaDia fechas pool regs maxPorDia k f) = false := by
  intro k
  induction k with
  | zero =>
    intro f h
    simpa [buscaDia] using h
  | succ n ih =>
    intro f h
    simp only [buscaDia]
    split
    · exact h
    · exact ih _ (esDomingo_avanzaDia f)

theorem buscaDia_ge (fechas pool : List Nat) (regs : List Registro)
    (maxPorDia : Nat) : ∀ k f, f ≤ buscaDia fechas pool regs maxPorDia k f := by
  intro k
  induction k with
  | zero =>
    intro f
    simp [buscaDia]
  | succ n ih =>
    intro f
    simp only [buscaDia]
    split
    · exact le_refl f
    · have h1 := avanzaDia_bounds f
      have h2 := ih (avanzaDia f)
      omega

theorem buscaDia_le (fechas pool : List Nat) (regs : List Registro)
    (maxPorDia : Nat) : ∀ k f, buscaDia fechas pool regs maxPorDia k f ≤ f + 2 * k := by
  intro k
  induction k with
  | zero =>
    intro f
    simp [buscaDia]
  | succ n ih =>
    intro f
    simp only [buscaDia]
    split
    · omega
    · have h1 := avanzaDia_bounds f
      have h2 := ih (avanzaDia f)
      omega

theorem buscaDia_caracteriza (fechas pool : List Nat) (regs : List Registro)
    (maxPorDia : Nat) : ∀ k f,
    (colisiona7Dias (buscaDia fechas pool regs maxPorDia k f) fechas = false ∧
      cuentaPorDia pool regs (buscaDia fechas pool regs maxPorDia k f) < maxPorDia) ∨
    buscaDia fechas pool regs maxPorDia k f = avanzaDia^[k] f := by
  intro k
  induction k with
  | zero =>
    intro f
    right
    simp [buscaDia]
  | succ n ih =>
    intro f
    simp only [buscaDia]
    split
    · rename_i h
      exact Or.inl h
    · rcases ih (avanzaDia f) with h | h
      · exact Or.inl h
      · right
        rw [Function.iterate_succ_apply]
        exact h

theorem colisiona_de_cuenta_pos (regs : List Registro) (f : Nat)
    (h : 0 < cuentaPorDia [] regs f) :
    colisiona7Dias f (setFechasProgramadas [] regs) = true := by
  unfold cuentaPorDia at h
  obtain ⟨r, hr⟩ := List.exists_mem_of_length_pos h
  obtain ⟨hr1, hr2⟩ := List.mem_filter.mp hr
  have hf : r.fecha = f := by simpa using hr2
  unfold colisiona7Dias setFechasProgramadas
  rw [List.any_eq_true]
  refine ⟨r.fecha, List.mem_map_of_mem _ hr1, ?_⟩
  simp [hf, Nat.dist_self]

theorem buscaDia_sin_capacidad_eq (regs : List Registro) :
    ∀ k f, buscaDia (setFechasProgramadas [] regs) [] regs 1 k f =
      buscaDiaSinCapacidad (setFechasProgramadas [] regs) k f := by
  intro k
  induction k with
  | zero =>
    intro f
    simp [buscaDia, buscaDiaSinCapacidad]
  | succ n ih =>
    intro f
    rcases hc : colisiona7Dias f (setFechasProgramadas [] regs) with _ | _
    · have h0 : cuentaPorDia [] regs f = 0 := by
        by_contra hne
        have hcol := colisiona_de_cuenta_pos regs f (Nat.pos_of_ne_zero hne)
        rw [hc] at hcol
        cases hcol
      simp [buscaDia, buscaDiaSinCapacidad, hc, h0]
    · simp only [buscaDia, buscaDiaSinCapacidad, hc]
      simp only [if_neg (by simp : ¬ (true = false ∧ cuentaPorDia [] regs f < 1)),
        if_neg (by simp : ¬ (true = false))]
      exact ih (avanzaDia f)

/-! ## Claims about the scheduler search -/

/-- Claim C8: every date returned by `primerDiaDisponible`, including the
horizon-fallback result, is not a Sunday (the disallowed day, modelled as
day numbers with `d % 7 = 0`). -/
theorem claim_c8_no_domingo (tabla : List Cede) (regs : List Registro)
    (cedisId : Option Nat) (hoy base : Nat) :
    esDomingo (primerDiaDisponible tabla regs cedisId hoy base) = false := by
  unfold primerDiaDisponible
  exact buscaDia_no_domingo _ _ _ _ 180 _ (esDomingo_normalizaFuturo hoy base)

/-- Claim C2, counterexample: with an empty snapshot, no depot, today = day 1
and a computed base date equal to today, the scheduler returns day 1 itself —
a present date, refuting "the returned date is strictly later than today". -/
theorem claim_c2_counterexample : ¬ 1 < primerDiaDisponible [] [] none 1 1 := by
  decide

/-- Claim C2, amended: the returned date is never earlier than today, and
when the computed base date is strictly in the past it is clamped to at
least tomorrow, so the result is then strictly later than today; a base
equal to today, however, may be returned as is. -/
theorem claim_c2_futuro (tabla : List Cede) (regs : List Registro)
    (cedisId : Option Nat) (hoy base : Nat) :
    hoy ≤ primerDiaDisponible tabla regs cedisId hoy base ∧
    (base < hoy → hoy < primerDiaDisponible tabla regs cedisId hoy base) := by
  have hn : hoy ≤ normalizaFuturo hoy base ∧
      (base < hoy → hoy + 1 ≤ normalizaFuturo hoy base) := by
    unfold normalizaFuturo evitaDomingo
    split_ifs <;> omega
  unfold primerDiaDisponible
  have hg := buscaDia_ge (setFechasProgramadas (workshopInfo tabla cedisId).1 regs)
    (workshopInfo tabla cedisId).1 regs (workshopInfo tabla cedisId).2
    180 (normalizaFuturo hoy base)
  refine ⟨le_trans hn.1 hg, fun h => lt_of_lt_of_le ?_ hg⟩
  have := hn.2 h
  omega

/-- Witness for the amended C2: with today = day 2 and a base in the past,
the returned date is strictly later than today. -/
theorem claim_c2_futuro_witness :
    2 ≤ primerDiaDisponible [] [] none 2 0 ∧ 2 < primerDiaDisponible [] [] none 2 0 :=
  ⟨(claim_c2_futuro [] [] none 2 0).1, (claim_c2_futuro [] [] none 2 0).2 (by decide)⟩

/-- Claim C1: on a snapshot with open records every 13 days, every candidate
in the 180-step horizon violates the spacing rule; `primerDiaDisponible`
then returns the 181st candidate — which itself still collides — instead of
raising any `SchedulingExhausted` failure (no such failure exists in the
code: the return type is a plain date). -/
theorem claim_c1_fallback_colisiona :
    colisiona7Dias (primerDiaDisponible [] bloqueos none 1 1)
      (setFechasProgramadas [] bloqueos) = true ∧
    primerDiaDisponible [] bloqueos none 1 1 =
      avanzaDia^[180] (normalizaFuturo 1 1) := by
  decide

/-- Claim C5, counterexample: on the fully-blocked snapshot the scheduler
returns a date at distance 2 (< 7) from the scheduled date 209, refuting
"every returned date is at least 7 days from every snapshot date". -/
theorem claim_c5_counterexample :
    209 ∈ setFechasProgramadas [] bloqueos ∧
    Nat.dist (primerDiaDisponible [] bloqueos none 1 1) 209 < 7 := by
  decide

/-- Claim C5, amended: a candidate conflicts exactly when its absolute day
distance to some scheduled date is strictly below 7, and every returned date
either passes the spacing (and capacity) rules or is the horizon-fallback
candidate obtained by 180 advances from the normalized base. -/
theorem claim_c5_espaciado (c : Nat) (fechas : List Nat) (tabla : List Cede)
    (regs : List Registro) (cedisId : Option Nat) (hoy base : Nat) :
    (colisiona7Dias c fechas = true ↔ ∃ d ∈ fechas, Nat.dist c d < 7) ∧
    (colisiona7Dias (primerDiaDisponible tabla regs cedisId hoy base)
        (setFechasProgramadas (workshopInfo tabla cedisId).1 regs) = false ∨
      primerDiaDisponible tabla regs cedisId hoy base =
        avanzaDia^[180] (normalizaFuturo hoy base)) := by
  constructor
  · unfold colisiona7Dias
    simp [List.any_eq_true]
  · unfold primerDiaDisponible
    rcases buscaDia_caracteriza (setFechasProgramadas (workshopInfo tabla cedisId).1 regs)
      (workshopInfo tabla cedisId).1 regs (workshopInfo tabla cedisId).2
      180 (normalizaFuturo hoy base) with h | h
    · exact Or.inl h.1
    · exact Or.inr h

/-- Claim C3, counterexample: depot 1 (Cartago) pools with depot 2
(Transportadora) at capacity 5, yet on a snapshot whose spacing rule blocks
the whole horizon the scheduler returns day 211, a day already holding 5
open records of the pool — the pool count of the returned date is not below
the capacity. -/
theorem claim_c3_counterexample :
    workshopInfo cedesEjemplo (some 1) = ([1, 2], 5) ∧
    (workshopInfo cedesEjemplo (some 1)).2 ≤
      cuentaPorDia (workshopInfo cedesEjemplo (some 1)).1 regsCartago
        (primerDiaDisponible cedesEjemplo regsCartago (some 1) 1 1) := by
  decide

/-- Claim C3, amended: whenever the returned date is not the horizon-fallback
candidate, the number of open records of the depot pool on that date is
strictly below the pool capacity (counted over the union of pooled depots,
5 for the Cartago/Transportadora pool and 1 otherwise). -/
theorem claim_c3_capacidad (tabla : List Cede) (regs : List Registro)
    (cedisId : Option Nat) (hoy base : Nat)
    (h : primerDiaDisponible tabla regs cedisId hoy base ≠
      avanzaDia^[180] (normalizaFuturo hoy base)) :
    cuentaPorDia (workshopInfo tabla cedisId).1 regs
      (primerDiaDisponible tabla regs cedisId hoy base) <
      (workshopInfo tabla cedisId).2 := by
  unfold primerDiaDisponible at h ⊢
  rcases buscaDia_caracteriza (setFechasProgramadas (workshopInfo tabla cedisId).1 regs)
    (workshopInfo tabla cedisId).1 regs (workshopInfo tabla cedisId).2
    180 (normalizaFuturo hoy base) with hh | hh
  · exact hh.2
  · exact absurd hh h

/-- Witness for the amended C3 at the trivial snapshot. -/
theorem claim_c3_capacidad_witness :
    cuentaPorDia (workshopInfo [] none).1 []
      (primerDiaDisponible [] [] none 1 1) < (workshopInfo [] none).2 :=
  claim_c3_capacidad [] [] none 1 1 (by decide)

/-- Claim C4: with no depot affiliation the scheduler behaves exactly as the
same search with the capacity policy skipped entirely — every candidate
passing the calendar and spacing rules is accepted. -/
theorem claim_c4_sin_cede (tabla : List Cede) (regs : List Registro) (hoy base : Nat) :
    primerDiaDisponible tabla regs none hoy base = primerDiaSinCapacidad regs hoy base := by
  unfold primerDiaDisponible primerDiaSinCapacidad
  exact buscaDia_sin_capacidad_eq regs 180 (normalizaFuturo hoy base)

theorem foldl_min_le (cs : List Nat) : ∀ c : Nat,
    cs.foldl min c ≤ c ∧ ∀ d ∈ cs, cs.foldl min c ≤ d := by
  induction cs with
  | nil =>
    intro c
    simp
  | cons a as ih =>
    intro c
    simp only [List.foldl_cons]
    refine ⟨le_trans (ih (min c a)).1 (min_le_left _ _), fun d hd => ?_⟩
    rcases List.mem_cons.mp hd with h | h
    · rw [h]
      exact le_trans (ih (min c a)).1 (min_le_right _ _)
    · exact (ih (min c a)).2 d h

theorem foldl_min_mem (cs : List Nat) : ∀ c : Nat,
    cs.foldl min c = c ∨ cs.foldl min c ∈ cs := by
  induction cs with
  | nil =>
    intro c
    left
    rfl
  | cons a as ih =>
    intro c
    simp only [List.foldl_cons]
    rcases ih (min c a) with h | h
    · rw [h]
      rcases min_choice c a with hm | hm
      · rw [hm]
        left
        rfl
      · rw [hm]
        right
        exact List.mem_cons_self a as
    · right
      exact List.mem_cons_of_mem a h

/-- Claim C9: a non-empty list of recognized task labels yields the minimum
of the intervals the `WORK_RULES` table assigns to them, while a task list
with no recognized label (in particular an empty one) leaves the default of
45 days unchanged. -/
theorem claim_c9_dias_por_trabajos (trabajos : List String) :
    ((∀ t ∈ trabajos, (workRuleDias t).isSome = true) → trabajos ≠ [] →
      diasBasePorTrabajos trabajos ∈ trabajos.filterMap workRuleDias ∧
      ∀ d ∈ trabajos.filterMap workRuleDias, diasBasePorTrabajos trabajos ≤ d) ∧
    ((∀ t ∈ trabajos, workRuleDias t = none) →
      diasBasePorTrabajos trabajos = 45) := by
  constructor
  · intro hrec hne
    have hfil : trabajos.filter (fun x => x != "") = trabajos := by
      apply List.filter_eq_self.mpr
      intro a ha
      have h := hrec a ha
      simp only [bne_iff_ne, ne_eq, decide_eq_true_eq]
      intro heq
      rw [heq] at h
      exact absurd h (by decide)
    have hemp : trabajos.isEmpty = false := by
      cases trabajos with
      | nil => exact absurd rfl hne
      | cons a as => rfl
    cases trabajos with
    | nil => exact absurd rfl hne
    | cons a as =>
      obtain ⟨d0, hd0⟩ := Option.isSome_iff_exists.mp (hrec a (List.mem_cons_self a as))
      unfold diasBasePorTrabajos
      rw [hfil]
      simp only [hemp, Bool.false_eq_true, if_false, List.filterMap_cons, hd0]
      constructor
      · rcases foldl_min_mem (as.filterMap workRuleDias) d0 with h | h
        · rw [h]
          exact List.mem_cons_self _ _
        · exact List.mem_cons_of_mem _ h
      · intro d hd
        rcases List.mem_cons.mp hd with h | h
        · subst h
          exact (foldl_min_le (as.filterMap workRuleDias) d).1
        · exact (foldl_min_le (as.filterMap workRuleDias) d0).2 d h
  · intro hnone
    unfold diasBasePorTrabajos
    have hfm : (trabajos.filter (fun x => x != "")).filterMap workRuleDias = [] :=
      List.filterMap_eq_nil_iff.mpr
        (fun a ha => hnone a (List.mem_of_mem_filter ha))
    by_cases h : (trabajos.filter (fun x => x != "")).isEmpty
    · simp [h]
    · simp [h, hfm]

/-- Witness for C9: two recognized tasks give the shorter of their implied
intervals (30 days), and an unrecognized task keeps the 45-day default. -/
theorem claim_c9_dias_por_trabajos_witness :
    diasBasePorTrabajos ["Cambio de aceite", "Pastillas/frenos"] ≤ 30 ∧
    diasBasePorTrabajos ["Lavado"] = 45 :=
  ⟨((claim_c9_dias_por_trabajos ["Cambio de aceite", "Pastillas/frenos"]).1
      (by decide) (by decide)).2 30 (by decide),
   (claim_c9_dias_por_trabajos ["Lavado"]).2 (by decide)⟩

end Mantenimientos
